import Mathlib

/-
Verification of the voice-and-vision assistant (src/assistant.py) against its
natural-language specification.  Each Python construct that the claims touch is
shallowly embedded as an executable Lean definition; theorems about those
definitions settle the claims.

Conventions used throughout:
* Video frames are opaque values, modelled as `Nat`.
* The `latest_image` module-level variable (the Frame Cache) is `Option Nat`,
  `none` standing for Python's `None`.
* Python dictionaries keyed by strings are association lists.
-/

/-! ### Frame Cache (`latest_image`, written by `process_video`, read by `_answer`) -/

/-- One operation on the `latest_image` cell: `process_video` performs
`latest_image = event.frame` (a write), `_answer` reads it.  Writes replace the
cell unconditionally; reads leave it unchanged.  Both are total functions
(never block, never fail). -/
inductive CacheOp
  | write (f : Nat)
  | read
deriving DecidableEq

/-- Effect of one cache operation on the cell, from the two source lines
`latest_image = event.frame` (write) and the reads of `latest_image`. -/
def cache_step (st : Option Nat) (op : CacheOp) : Option Nat :=
  match op with
  | CacheOp.write f => some f
  | CacheOp.read => st

/-- The cell after a history of operations; initially `latest_image` is `None`. -/
def cache_run (ops : List CacheOp) : Option Nat :=
  ops.foldl cache_step none

/-! ### Conversation State (`chat_context`) and `_answer` -/

/-- One element of a `ChatMessage.content` list: a text segment or a
`ChatImage` wrapping a frame. -/
inductive ContentPart
  | text (s : String)
  | image (frame : Nat)
deriving DecidableEq

/-- Embedding of `livekit.agents.llm.ChatMessage` as used by the source:
a role string plus a content list. -/
structure ChatMessage where
  role : String
  content : List ContentPart
deriving DecidableEq

/-- The system persona string from the `ChatContext` construction (the two
adjacent Python string literals concatenate). -/
def system_prompt : String :=
  "Your name is Alloy. You are a funny, witty bot. Your interface with users will be voice and vision. Respond with short and concise answers. Avoid using unpronouncable punctuation or emojis."

/-- The initial `chat_context`: exactly one system message. -/
def chat_context : List ChatMessage :=
  [ChatMessage.mk ("system") [ContentPart.text system_prompt]]

/-- The `content` list built by `_answer`: `content = [text]`, then
`if use_image and latest_image: content.append(ChatImage(image=latest_image))`.
A Python object is truthy, so the guard is `use_image = true` and
`latest_image ≠ None`. -/
def answer_content (text : String) (use_image : Bool) (latest_image : Option Nat) :
    List ContentPart :=
  if use_image then
    match latest_image with
    | some img => [ContentPart.text text, ContentPart.image img]
    | none => [ContentPart.text text]
  else [ContentPart.text text]

/-- The user message `_answer` appends: `ChatMessage(role="user", content=content)`. -/
def answer_message (text : String) (use_image : Bool) (latest_image : Option Nat) :
    ChatMessage :=
  ChatMessage.mk ("user") (answer_content text use_image latest_image)

/-- Observable outcome of one `_answer` call: the conversation after the append,
and the context handed to `gpt.chat` (the same live list - the source passes
`chat_context` itself, no copy). -/
structure AnswerOutcome where
  newMessages : List ChatMessage
  requestContext : List ChatMessage
deriving DecidableEq

/-- Embedding of `_answer(text, use_image)`: build the content, append the user
message to `chat_context`, and issue `gpt.chat(chat_ctx=chat_context)` followed
by `assistant.say(stream)`.  The request context is the conversation list as it
stands after the append. -/
def _answer (latest_image : Option Nat) (st : List ChatMessage) (text : String)
    (use_image : Bool) : AnswerOutcome :=
  let st2 := st ++ [answer_message text use_image latest_image]
  AnswerOutcome.mk st2 st2

/-- Conversation evolution under a sequence of `_answer` calls, each given by
(text, use_image, value of `latest_image` at that moment), starting from the
initial `chat_context`.  These appends are the only mutations of
`chat_context.messages` in the source. -/
def answer_fold (calls : List (String × Bool × Option Nat)) : List ChatMessage :=
  calls.foldl (fun st c => (_answer c.2.2 st c.1 c.2.1).newMessages) chat_context

/-- Embedding of `AssistantFunction.image(user_msg)`: returns a fixed string
depending only on whether `latest_image` is `None`; never raises. -/
def AssistantFunction.image (latest_image : Option Nat) (user_msg : String) : String :=
  match latest_image with
  | none => "No video feed available at the moment. Please ensure your camera is on."
  | some _ => "Processing the image from your camera..."

/-! ### Function-Call Resolver path (`on_function_calls_finished`) -/

/-- Embedding of `called_function.call_info`: the function name and the
arguments mapping. -/
structure FunctionCallInfo where
  function_name : String
  arguments : List (String × String)
deriving DecidableEq

/-- Embedding of `livekit.agents.llm.CalledFunction` as used by the handler. -/
structure CalledFunction where
  call_info : FunctionCallInfo
deriving DecidableEq

/-- Python `dict.get(key)`: the value when present, `None` otherwise. -/
def argGet (args : List (String × String)) (key : String) : Option String :=
  match args.find? (fun kv => kv.1 == key) with
  | some kv => some kv.2
  | none => none

/-- Embedding of `on_function_calls_finished`.  The result lists the `_answer`
tasks the handler creates, as (text, use_image) pairs: empty list on an empty
batch; otherwise it reads `called_functions[0].call_info.arguments.get("user_msg")`
and creates `_answer(user_msg, use_image=True)` only when that value is truthy
(present and non-empty). -/
def on_function_calls_finished (called_functions : List CalledFunction) :
    List (String × Bool) :=
  match called_functions with
  | [] => []
  | cf :: _ =>
    match argGet cf.call_info.arguments ("user_msg") with
    | some s => if s = "" then [] else [(s, true)]
    | none => []

/-- A language-model response: prose, or a batch of completed function calls.
The re-issued call inside `_answer` is `gpt.chat(chat_ctx=chat_context)` with no
`fnc_ctx`, so it declares no capabilities and its response is prose; only the
assistant pipeline's own call (built with `fnc_ctx=AssistantFunction()`) can
produce function calls. -/
inductive LLMResponse
  | prose (text : String)
  | functionCalls (called : List CalledFunction)
deriving DecidableEq

/-- The `_answer` re-issues a single turn performs, determined by the response
of the turn's capability-bearing language-model call: the handler fires once on
a function-call response, and the re-issued plain `gpt.chat` cannot produce
further function calls. -/
def reissuesOfTurn (resp : LLMResponse) : List (String × Bool) :=
  match resp with
  | LLMResponse.prose _ => []
  | LLMResponse.functionCalls called => on_function_calls_finished called

/-! ### Inbound data packets (`on_data_received`) and strict UTF-8 decoding -/

/-- The two delivery kinds of `rtc.DataPacketKind` used by the source. -/
inductive DataPacketKind
  | reliable
  | lossy
deriving DecidableEq

/-- Embedding of `rtc.DataPacket` as used by the handler: a kind and a byte
payload. -/
structure DataPacket where
  kind : DataPacketKind
  data : List Nat
deriving DecidableEq

/-- Is `b` a UTF-8 continuation byte (10xxxxxx)? -/
def utf8Cont (b : Nat) : Bool :=
  0x80 ≤ b && b ≤ 0xBF

/-- Python's strict `bytes.decode("utf-8")`, modelled on byte lists and
returning the decoded code points, or `none` where CPython raises
`UnicodeDecodeError` (invalid leading byte, truncated sequence, overlong form,
surrogate, or value above U+10FFFF). -/
def utf8Decode : List Nat → Option (List Nat)
  | [] => some []
  | b1 :: t1 =>
    if b1 ≤ 0x7F then
      (utf8Decode t1).map (fun r => b1 :: r)
    else if 0xC2 ≤ b1 && b1 ≤ 0xDF then
      match t1 with
      | b2 :: t2 =>
        if utf8Cont b2 then
          (utf8Decode t2).map (fun r => ((b1 - 0xC0) * 0x40 + (b2 - 0x80)) :: r)
        else none
      | [] => none
    else if 0xE0 ≤ b1 && b1 ≤ 0xEF then
      match t1 with
      | b2 :: b3 :: t3 =>
        let lo2 := if b1 = 0xE0 then 0xA0 else 0x80
        let hi2 := if b1 = 0xED then 0x9F else 0xBF
        if (lo2 ≤ b2 && b2 ≤ hi2) && utf8Cont b3 then
          (utf8Decode t3).map
            (fun r => (((b1 - 0xE0) * 0x40 + (b2 - 0x80)) * 0x40 + (b3 - 0x80)) :: r)
        else none
      | _ => none
    else if 0xF0 ≤ b1 && b1 ≤ 0xF4 then
      match t1 with
      | b2 :: b3 :: b4 :: t4 =>
        let lo2 := if b1 = 0xF0 then 0x90 else 0x80
        let hi2 := if b1 = 0xF4 then 0x8F else 0xBF
        if (lo2 ≤ b2 && b2 ≤ hi2) && (utf8Cont b3 && utf8Cont b4) then
          (utf8Decode t4).map
            (fun r =>
              ((((b1 - 0xF0) * 0x40 + (b2 - 0x80)) * 0x40 + (b3 - 0x80)) * 0x40
                + (b4 - 0x80)) :: r)
        else none
      | _ => none
    else none

/-- Embedding of `on_data_received`: on a `KIND_RELIABLE` packet it decodes the
payload as UTF-8 and creates `_answer(message, use_image=False)`; any other
kind is ignored.  A payload CPython cannot decode makes `decode` raise inside
the handler before any task is created, modelled as `Except.error ()`.  The
`ok` payload is the created reply task, as (decoded text, use_image), or `none`
when no task is created. -/
def on_data_received (p : DataPacket) : Except Unit (Option (List Nat × Bool)) :=
  if p.kind = DataPacketKind.reliable then
    match utf8Decode p.data with
    | some cps => Except.ok (some (cps, false))
    | none => Except.error ()
  else Except.ok none

/-- Whether an inbound packet triggers a reply turn (an `_answer` task). -/
def replyTriggered (p : DataPacket) : Bool :=
  match on_data_received p with
  | Except.ok (some _) => true
  | _ => false

/-! ### Video source selection (`get_video_track`) -/

/-- A remote track: its sid, and whether it is an `rtc.RemoteVideoTrack`
(the `isinstance` test in the source). -/
structure RemoteTrack where
  sid : Nat
  isVideo : Bool
deriving DecidableEq

/-- A track publication: `track` is `None` until subscribed. -/
structure TrackPublication where
  track : Option RemoteTrack
deriving DecidableEq

/-- A remote participant with its publications, in iteration order. -/
structure Participant where
  track_publications : List TrackPublication
deriving DecidableEq

/-- The inner loop of `get_video_track` for one participant: scan publications
in order and stop at the first whose track is present and is a video track
(the `break` exits only this inner loop). -/
def participantFirstVideo (p : Participant) : Option RemoteTrack :=
  p.track_publications.findSome? (fun pub =>
    match pub.track with
    | some t => if t.isVideo then some t else none
    | none => none)

/-- Result of a `get_video_track` call: the awaited track, the
`InvalidStateError` that `Future.set_result` raises when called on a future
that already holds a result, or an await that never completes because the
future was never resolved. -/
inductive VideoTrackOutcome
  | ok (t : RemoteTrack)
  | invalidState
  | pending
deriving DecidableEq

/-- Embedding of `get_video_track`: iterate the participants in order, and for
each one holding a video track call `video_track.set_result` on the single
shared future.  `set_result` on an already-resolved future raises
`InvalidStateError`, which propagates out of the function at once (modelled by
the sticky `Except.error`).  If the loops finish without any `set_result`, the
final `await video_track` suspends forever. -/
def get_video_track (room : List Participant) : VideoTrackOutcome :=
  let fut := room.foldl
    (fun acc p =>
      match acc, participantFirstVideo p with
      | Except.error e, _ => Except.error e
      | Except.ok f, none => Except.ok f
      | Except.ok (some _), some _ => Except.error ()
      | Except.ok none, some t => Except.ok (some t))
    (Except.ok (none : Option RemoteTrack))
  match fut with
  | Except.error _ => VideoTrackOutcome.invalidState
  | Except.ok none => VideoTrackOutcome.pending
  | Except.ok (some t) => VideoTrackOutcome.ok t

/-- The first video track in discovery order (iteration over participants and
their publications) - what the docstring "Get the first video track from the
room" promises. -/
def firstVideoTrack (room : List Participant) : Option RemoteTrack :=
  room.findSome? participantFirstVideo

/-- A room with two remote participants, each publishing one subscribed video
track. -/
def twoCameraRoom : List Participant :=
  [Participant.mk [TrackPublication.mk (some (RemoteTrack.mk 1 true))],
   Participant.mk [TrackPublication.mk (some (RemoteTrack.mk 2 true))]]

/-! ### Video Ingest Loop (`process_video`) -/

/-- One observable event in an execution of the `process_video` loop:
either the room leaves `CONN_CONNECTED` (observed at the `while` check),
or one pass through the loop body which writes the listed frames to
`latest_image` and then either ends normally or raises an exception caught by
the `except Exception` clause. -/
inductive VideoEvent
  | disconnect
  | body (frames : List Nat) (err : Bool)
deriving DecidableEq

/-- State of the `process_video` loop: the Frame Cache cell, how many errors
were caught and printed, how many `asyncio.sleep(1)` retry delays ran, and
whether the `while` loop has exited. -/
structure VideoLoopState where
  latest : Option Nat
  errorsLogged : Nat
  retrySleeps : Nat
  exited : Bool
deriving DecidableEq

/-- One step of the `process_video` loop.  After exit nothing further happens.
A disconnect makes the `while` condition false, ending the loop normally.  A
body pass writes its frames to `latest_image` in order; if it raised, the
`except` clause prints the error and sleeps one second, and the loop
continues - an exception never terminates the loop. -/
def process_video_step (st : VideoLoopState) (e : VideoEvent) : VideoLoopState :=
  if st.exited then st
  else
    match e with
    | VideoEvent.disconnect =>
      { st with exited := true }
    | VideoEvent.body frames err =>
      let latest2 := frames.foldl (fun _ f => some f) st.latest
      if err then
        { st with latest := latest2, errorsLogged := st.errorsLogged + 1,
                  retrySleeps := st.retrySleeps + 1 }
      else
        { st with latest := latest2 }

/-- Run of the `process_video` loop over a finite schedule of events, from the
initial state (`latest_image = None`, loop running). -/
def process_video (evs : List VideoEvent) : VideoLoopState :=
  evs.foldl process_video_step (VideoLoopState.mk none 0 0 false)

/-- Does the event report the room no longer connected? -/
def isDisconnect : VideoEvent → Bool
  | VideoEvent.disconnect => true
  | _ => false

/-- Is the event a loop-body pass that raised? -/
def isErrorBody : VideoEvent → Bool
  | VideoEvent.body _ true => true
  | _ => false

/-! ### Trigger scheduling (C1): `asyncio.create_task(_answer(...))` under the
event loop.

Each trigger (recognized speech, inbound reliable packet, resolver re-answer)
runs `asyncio.create_task(_answer(...))`, which appends the new task to the
event loop's FIFO ready queue.  When the loop runs a task's first step, the
task synchronously appends its user message and issues its `gpt.chat` request,
then suspends at `await assistant.say(stream)` (consuming the model stream,
then speaking).  There is no gate in the source that holds a later trigger's
task back while an earlier turn is still awaiting the model. -/

/-- Phase of one trigger's turn task.  `queued`: created, first step not yet
run.  `awaitingModel`: first step ran (message appended, request issued),
suspended consuming the model stream.  `speaking`: the reply is being
synthesized.  `done`: the turn completed. -/
inductive Phase
  | queued
  | awaitingModel
  | speaking
  | done
deriving DecidableEq

/-- Scheduler events: a trigger arrives (`create_task`), the event loop runs
the ready-queue head to its first suspension, a task's model stream finishes
(it proceeds to speaking), a task's synthesis finishes. -/
inductive TurnEvent
  | arrive
  | loopStep
  | modelDone (id : Nat)
  | sayDone (id : Nat)
deriving DecidableEq

/-- Scheduler state: the next fresh task id, the trigger arrival order, the
event loop's FIFO ready queue, each task's phase (most recent entry wins), the
ids of the user messages appended to `chat_context` in append order, and an
audit log recording, at each dequeue, the phases all earlier-arrived tasks were
in at that moment. -/
structure TurnSchedState where
  nextId : Nat
  arrivals : List Nat
  ready : List Nat
  phases : List (Nat × Phase)
  messages : List Nat
  dequeueLog : List (Nat × List Phase)
deriving DecidableEq

/-- Current phase of a task (assoc-list lookup, most recent entry first). -/
def phaseOf (st : TurnSchedState) (id : Nat) : Phase :=
  match st.phases.find? (fun e => e.1 == id) with
  | some e => e.2
  | none => Phase.done

/-- One scheduler step, as the source behaves: `arrive` enqueues a fresh task
at the back of the ready queue; `loopStep` pops the front task and runs its
synchronous first segment (append the user message, issue the request, suspend
awaiting the model); `modelDone` and `sayDone` advance a suspended task. -/
def turn_step (st : TurnSchedState) (e : TurnEvent) : TurnSchedState :=
  match e with
  | TurnEvent.arrive =>
    { st with nextId := st.nextId + 1,
              arrivals := st.arrivals ++ [st.nextId],
              ready := st.ready ++ [st.nextId],
              phases := (st.nextId, Phase.queued) :: st.phases }
  | TurnEvent.loopStep =>
    match st.ready with
    | [] => st
    | id :: rest =>
      { st with ready := rest,
                messages := st.messages ++ [id],
                dequeueLog := st.dequeueLog ++ [(id, (List.range id).map (phaseOf st))],
                phases := (id, Phase.awaitingModel) :: st.phases }
  | TurnEvent.modelDone id =>
    if phaseOf st id = Phase.awaitingModel then
      { st with phases := (id, Phase.speaking) :: st.phases }
    else st
  | TurnEvent.sayDone id =>
    if phaseOf st id = Phase.speaking then
      { st with phases := (id, Phase.done) :: st.phases }
    else st

/-- Run the trigger scheduler from the empty initial state. -/
def turn_run (evs : List TurnEvent) : TurnSchedState :=
  evs.foldl turn_step (TurnSchedState.mk 0 [] [] [] [] [])

/-- Boolean form of claim C1's queuing discipline on one schedule: whenever a
trigger's task is dequeued, every earlier-arrived trigger's turn has already
reached `speaking` or completed. -/
def c1Holds (evs : List TurnEvent) : Bool :=
  (turn_run evs).dequeueLog.all (fun entry =>
    entry.2.all (fun p => decide (p = Phase.speaking) || decide (p = Phase.done)))

/-- Claim C1 as stated: on every schedule, a trigger is dequeued only after
every earlier trigger's turn has reached `speaking` or completed. -/
def C1_claim : Prop := ∀ evs : List TurnEvent, c1Holds evs = true

/-! ### Reasoning-request construction (C3): `gpt.chat(chat_ctx=chat_context)`
passes the live object.

The source hands the mutable `chat_context` itself to `gpt.chat`; there is no
`snapshot()`/`copy()` anywhere.  The machine below tracks one request: ops are
appends to `chat_context.messages`, the issue of the request, and the later
consumption of the request's context (when the in-flight call serializes the
messages).  `issuedContent` instruments what a snapshot taken at issue time
would have contained; `consumedContent` records what the request actually sees,
namely the list as it stands at consumption time (reference semantics). -/

/-- Operations touching `chat_context` around one in-flight request. -/
inductive CtxOp
  | append (m : Nat)
  | issue
  | consume
deriving DecidableEq

/-- State of the conversation cell and the single tracked request. -/
structure CtxState where
  messages : List Nat
  issuedContent : Option (List Nat)
  consumedContent : Option (List Nat)
deriving DecidableEq

/-- One step: appends extend the live list; `issue` records the issue-time
value (first issue only); `consume` reads the live list - not the issue-time
value - because the source passed the object by reference. -/
def ctx_step (st : CtxState) (op : CtxOp) : CtxState :=
  match op with
  | CtxOp.append m => { st with messages := st.messages ++ [m] }
  | CtxOp.issue =>
    match st.issuedContent with
    | some _ => st
    | none => { st with issuedContent := some st.messages }
  | CtxOp.consume =>
    match st.issuedContent, st.consumedContent with
    | some _, none => { st with consumedContent := some st.messages }
    | _, _ => st

/-- Run from the initial conversation (just the system message, labelled 0). -/
def ctx_run (ops : List CtxOp) : CtxState :=
  ops.foldl ctx_step (CtxState.mk [0] none none)

/-- Boolean form of claim C3 on one schedule: the content the in-flight request
is consumed with equals the content at issue time. -/
def c3Holds (ops : List CtxOp) : Bool :=
  match (ctx_run ops).issuedContent, (ctx_run ops).consumedContent with
  | some ic, some cc => decide (cc = ic)
  | _, _ => true

/-- Claim C3 as stated: on every schedule, a concurrent append never changes
the content of a request already issued. -/
def C3_claim : Prop := ∀ ops : List CtxOp, c3Holds ops = true

/-- Claim C6 as stated, at this handler: a non-empty completed-calls batch
always produces some reply path (a re-issue or a fallback), never nothing. -/
def C6_claim : Prop :=
  ∀ cfs : List CalledFunction, cfs ≠ [] → on_function_calls_finished cfs ≠ []

/-- Claim C10 as stated: a reply turn is triggered exactly on the reliable
packet kind. -/
def C10_claim : Prop :=
  ∀ p : DataPacket, replyTriggered p = decide (p.kind = DataPacketKind.reliable)

/-- A completed call of the declared `image` capability with a valid
`user_msg` argument. -/
def visionCall : CalledFunction :=
  CalledFunction.mk (FunctionCallInfo.mk ("image") [(("user_msg"), ("What do you see"))])

/-- Invariant of the request-reference machine: while no request is issued none
is consumed, and the issue-time content is an initial segment of the live list
and of anything the request is consumed with. -/
def CtxInv (st : CtxState) : Prop :=
  (st.issuedContent = none → st.consumedContent = none)
  ∧ ∀ ic, st.issuedContent = some ic →
      ic <+: st.messages ∧ ∀ cc, st.consumedContent = some cc → ic <+: cc

/-! ## Theorems -/

/-- Reads leave the Frame Cache cell unchanged. -/
theorem cache_foldl_reads (rs : List CacheOp) (hr : ∀ r ∈ rs, r = CacheOp.read) :
    ∀ st : Option Nat, List.foldl cache_step st rs = st := by
  induction rs with
  | nil => intro st; rfl
  | cons r t ih =>
    intro st
    have hrt : ∀ x ∈ t, x = CacheOp.read := fun x hx => hr x (List.mem_cons_of_mem _ hx)
    have hr0 : r = CacheOp.read := hr r (List.mem_cons_self _ _)
    subst hr0
    simpa [List.foldl_cons, cache_step] using ih hrt st

/-- Claim C4: a Frame Cache read after at least one write returns exactly the
value of the last write, regardless of interleaved reads before or after it,
and a read before any write returns the absent sentinel (`none`).  `cache_step`
is a total function, so writes never block and never fail. -/
theorem C4_last_write_wins (ops rs : List CacheOp) (v : Nat)
    (hr : ∀ r ∈ rs, r = CacheOp.read) :
    cache_run (ops ++ CacheOp.write v :: rs) = some v ∧ cache_run rs = none := by
  constructor
  · show List.foldl cache_step none (ops ++ CacheOp.write v :: rs) = some v
    rw [List.foldl_append, List.foldl_cons]
    simpa [cache_step] using cache_foldl_reads rs hr (some v)
  · exact cache_foldl_reads rs hr none

/-- Witness for C4 at a concrete history: two writes with interleaved reads. -/
theorem C4_last_write_wins_witness :
    cache_run ([CacheOp.write 1, CacheOp.read] ++ CacheOp.write 2 :: [CacheOp.read]) = some 2
    ∧ cache_run [CacheOp.read] = none :=
  C4_last_write_wins [CacheOp.write 1, CacheOp.read] [CacheOp.read] 2 (by decide)

/-- Folding `_answer` appends from any state concatenates the corresponding
user messages at the end, in call order. -/
theorem answer_fold_general (calls : List (String × Bool × Option Nat)) :
    ∀ st : List ChatMessage,
      calls.foldl (fun st c => (_answer c.2.2 st c.1 c.2.1).newMessages) st
        = st ++ calls.map (fun c => answer_message c.1 c.2.1 c.2.2) := by
  induction calls with
  | nil => intro st; simp
  | cons c t ih =>
    intro st
    rw [List.foldl_cons, ih]
    simp [_answer, List.append_assoc]

/-- Claim C5: under every sequence of `_answer` calls the Conversation State is
the initial context followed by the appended user messages (append-only, no
in-place mutation, nothing removed), so the message at index 0 is always the
system message. -/
theorem C5_system_head_append_only (calls : List (String × Bool × Option Nat)) :
    answer_fold calls
      = chat_context ++ calls.map (fun c => answer_message c.1 c.2.1 c.2.2)
    ∧ (answer_fold calls).head?
      = some (ChatMessage.mk ("system") [ContentPart.text system_prompt]) := by
  have h : answer_fold calls
      = chat_context ++ calls.map (fun c => answer_message c.1 c.2.1 c.2.2) :=
    answer_fold_general calls chat_context
  exact ⟨h, by rw [h]; rfl⟩

/-- Claim C7: a turn that requests an image while the Frame Cache has never
been written proceeds without an image: the user message is still appended
(text only), the request is still issued, and `AssistantFunction.image`
returns its no-feed reply instead of failing. -/
theorem C7_no_frame_graceful (st : List ChatMessage) (text : String) :
    _answer none st text true
      = AnswerOutcome.mk (st ++ [ChatMessage.mk ("user") [ContentPart.text text]])
          (st ++ [ChatMessage.mk ("user") [ContentPart.text text]])
    ∧ AssistantFunction.image none text
      = "No video feed available at the moment. Please ensure your camera is on." :=
  ⟨rfl, rfl⟩

/-- Claim C2: a turn never creates more than one re-issued reasoning call, and
when the capability-bearing language-model call completes with a function-call
batch whose first call carries a non-empty `user_msg` argument (the triggering
user text, per the declared parameter), exactly one re-issue is created, with
that text and `use_image = true`.  The re-issued call itself goes through
`gpt.chat` with no `fnc_ctx`, so it yields prose and cannot repeat the
intent. -/
theorem C2_single_reissue (resp : LLMResponse) :
    (reissuesOfTurn resp).length ≤ 1
    ∧ ∀ cf rest s, resp = LLMResponse.functionCalls (cf :: rest) →
        argGet cf.call_info.arguments ("user_msg") = some s → s ≠ "" →
        reissuesOfTurn resp = [(s, true)] := by
  constructor
  · cases resp with
    | prose t => simp [reissuesOfTurn]
    | functionCalls called =>
      cases called with
      | nil => simp [reissuesOfTurn, on_function_calls_finished]
      | cons cf rest =>
        simp only [reissuesOfTurn, on_function_calls_finished]
        cases h : argGet cf.call_info.arguments ("user_msg") with
        | none => simp
        | some s =>
          by_cases hs : s = "" <;> simp [hs]
  · intro cf rest s hresp harg hs
    subst hresp
    simp [reissuesOfTurn, on_function_calls_finished, harg, hs]

/-- Witness for C2 at a concrete completed call of the `image` capability. -/
theorem C2_single_reissue_witness :
    argGet visionCall.call_info.arguments ("user_msg") = some ("What do you see")
    ∧ reissuesOfTurn (LLMResponse.functionCalls [visionCall])
        = [(("What do you see"), true)] :=
  ⟨by decide,
    (C2_single_reissue (LLMResponse.functionCalls [visionCall])).2 visionCall []
      ("What do you see") rfl (by decide) (by decide)⟩

/-- Claim C6 is false on the code: a completed call whose arguments lack
`user_msg` makes the handler return with no re-issue and no fallback reply -
the turn is dropped at this layer. -/
theorem C6_counterexample :
    on_function_calls_finished [CalledFunction.mk (FunctionCallInfo.mk ("image") [])] = []
    ∧ ¬ C6_claim := by
  refine ⟨rfl, fun h => ?_⟩
  exact (h [CalledFunction.mk (FunctionCallInfo.mk ("image") [])] (by decide)) rfl

/-- Claim C6 amended: when the first completed call's `user_msg` argument is
missing or empty, the handler issues nothing at all - no re-answer and no
fallback reply exists in the code. -/
theorem C6_missing_arg_drops_turn (cf : CalledFunction) (rest : List CalledFunction)
    (h : argGet cf.call_info.arguments ("user_msg") = none
       ∨ argGet cf.call_info.arguments ("user_msg") = some ("")) :
    on_function_calls_finished (cf :: rest) = [] := by
  cases h with
  | inl h => simp [on_function_calls_finished, h]
  | inr h => simp [on_function_calls_finished, h]

/-- Witness for the amended C6 at a concrete argument-less call. -/
theorem C6_missing_arg_drops_turn_witness :
    on_function_calls_finished [CalledFunction.mk (FunctionCallInfo.mk ("image") [])] = [] :=
  C6_missing_arg_drops_turn (CalledFunction.mk (FunctionCallInfo.mk ("image") [])) []
    (Or.inl (by decide))

/-- Claim C10 is false on the code as stated: a reliable packet whose payload
is not valid UTF-8 (here the single byte 0xFF) triggers no reply turn - the
decode raises before any task is created. -/
theorem C10_counterexample :
    replyTriggered (DataPacket.mk DataPacketKind.reliable [255]) = false
    ∧ ¬ C10_claim := by
  refine ⟨by decide, fun h => ?_⟩
  exact absurd (h (DataPacket.mk DataPacketKind.reliable [255])) (by decide)

/-- Claim C10 amended: an inbound packet triggers a reply turn (with
`use_image = false` and the UTF-8 decoded payload as text) if and only if its
kind is reliable AND the payload is valid UTF-8; lossy packets are ignored
without any effect. -/
theorem C10_reliable_utf8_reply (kind : DataPacketKind) (bytes : List Nat) :
    replyTriggered (DataPacket.mk kind bytes)
      = (decide (kind = DataPacketKind.reliable) && (utf8Decode bytes).isSome)
    ∧ on_data_received (DataPacket.mk DataPacketKind.lossy bytes) = Except.ok none
    ∧ ∀ cps, utf8Decode bytes = some cps →
        on_data_received (DataPacket.mk DataPacketKind.reliable bytes)
          = Except.ok (some (cps, false)) := by
  refine ⟨?_, ?_, ?_⟩
  · cases kind with
    | reliable =>
      simp only [replyTriggered, on_data_received]
      cases h : utf8Decode bytes with
      | none => simp [h]
      | some cps => simp [h]
    | lossy => simp [replyTriggered, on_data_received]
  · simp [on_data_received]
  · intro cps h
    simp [on_data_received, h]

/-- Witness for the amended C10 at a concrete reliable ASCII packet. -/
theorem C10_reliable_utf8_reply_witness :
    utf8Decode [104, 105] = some [104, 105]
    ∧ on_data_received (DataPacket.mk DataPacketKind.reliable [104, 105])
        = Except.ok (some ([104, 105], false)) :=
  ⟨by decide,
    (C10_reliable_utf8_reply DataPacketKind.reliable [104, 105]).2.2 [104, 105] (by decide)⟩

/-- Claim C8 at its failing input: in a room where two participants each
publish a subscribed video track, `get_video_track` calls `set_result` twice on
the one future (the `break` leaves only the inner loop), so it raises
`InvalidStateError` instead of returning the first discovered track; with the
two tracks on a single participant the code does return the first one. -/
theorem C8_two_publishers_invalid_state :
    get_video_track twoCameraRoom = VideoTrackOutcome.invalidState
    ∧ firstVideoTrack twoCameraRoom = some (RemoteTrack.mk 1 true)
    ∧ get_video_track [Participant.mk [TrackPublication.mk (some (RemoteTrack.mk 1 true)),
        TrackPublication.mk (some (RemoteTrack.mk 2 true))]]
        = VideoTrackOutcome.ok (RemoteTrack.mk 1 true) := by
  decide

/-- Once the `process_video` loop has exited, nothing further happens. -/
theorem process_video_exited_fix (evs : List VideoEvent) (st : VideoLoopState)
    (h : st.exited = true) : List.foldl process_video_step st evs = st := by
  induction evs with
  | nil => rfl
  | cons e t ih => simpa [List.foldl_cons, process_video_step, h] using ih

/-- The `process_video` loop exits exactly when the room disconnects. -/
theorem process_video_exited_eq (evs : List VideoEvent) :
    ∀ st : VideoLoopState,
      (List.foldl process_video_step st evs).exited
        = (st.exited || evs.any isDisconnect) := by
  induction evs with
  | nil => intro st; simp
  | cons e t ih =>
    intro st
    by_cases h : st.exited = true
    · rw [List.foldl_cons]
      have hstep : process_video_step st e = st := by simp [process_video_step, h]
      rw [hstep, ih st, h]
      simp
    · have h' : st.exited = false := by simpa using h
      cases e with
      | disconnect =>
        rw [List.foldl_cons]
        have hstep : process_video_step st VideoEvent.disconnect
            = { st with exited := true } := by
          simp [process_video_step, h']
        rw [hstep, ih]
        simp [isDisconnect, h']
      | body frames err =>
        rw [List.foldl_cons, ih]
        have hstep : (process_video_step st (VideoEvent.body frames err)).exited = false := by
          cases err <;> simp [process_video_step, h']
        rw [hstep, h']
        simp [isDisconnect]

/-- Error accounting of the `process_video` loop: every exception caught before
the disconnect is logged, and the loop keeps running. -/
theorem process_video_errors_eq (evs : List VideoEvent) :
    ∀ st : VideoLoopState, st.exited = false →
      (List.foldl process_video_step st evs).errorsLogged
        = st.errorsLogged
          + (evs.takeWhile (fun e => !(isDisconnect e))).countP isErrorBody := by
  induction evs with
  | nil => intro st _; simp
  | cons e t ih =>
    intro st h
    cases e with
    | disconnect =>
      rw [List.foldl_cons]
      have hstep : process_video_step st VideoEvent.disconnect
          = { st with exited := true } := by
        simp [process_video_step, h]
      rw [hstep, process_video_exited_fix t _ rfl]
      simp [isDisconnect]
    | body frames err =>
      rw [List.foldl_cons]
      cases err with
      | true =>
        have hstep : process_video_step st (VideoEvent.body frames true)
            = { st with latest := frames.foldl (fun _ f => some f) st.latest,
                        errorsLogged := st.errorsLogged + 1,
                        retrySleeps := st.retrySleeps + 1 } := by
          simp [process_video_step, h]
        rw [hstep, ih]
        · simp [isDisconnect, isErrorBody, List.countP_cons]
          omega
        · exact h
      | false =>
        have hstep : process_video_step st (VideoEvent.body frames false)
            = { st with latest := frames.foldl (fun _ f => some f) st.latest } := by
          simp [process_video_step, h]
        rw [hstep, ih]
        · simp [isDisconnect, isErrorBody, List.countP_cons]
        · exact h

/-- Every caught error is followed by a one-second retry sleep: the two
counters advance together. -/
theorem process_video_sleeps_eq (evs : List VideoEvent) :
    ∀ st : VideoLoopState, st.retrySleeps = st.errorsLogged →
      (List.foldl process_video_step st evs).retrySleeps
        = (List.foldl process_video_step st evs).errorsLogged := by
  induction evs with
  | nil => exact fun st h => h
  | cons e t ih =>
    intro st h
    rw [List.foldl_cons]
    apply ih
    cases e with
    | disconnect =>
      by_cases hex : st.exited = true <;> simp [process_video_step, hex, h]
    | body frames err =>
      by_cases hex : st.exited = true
      · simp [process_video_step, hex, h]
      · cases err <;> simp [process_video_step, hex, h]

/-- Claim C9: the Video Ingest Loop terminates only when the room disconnects;
an error in the body never ends it - each caught error is logged and followed
by a fixed one-second delay before the next retry. -/
theorem C9_loop_absorbs_errors (evs : List VideoEvent) :
    (process_video evs).exited = evs.any isDisconnect
    ∧ (process_video evs).errorsLogged
        = (evs.takeWhile (fun e => !(isDisconnect e))).countP isErrorBody
    ∧ (process_video evs).retrySleeps = (process_video evs).errorsLogged := by
  refine ⟨?_, ?_, ?_⟩
  · simpa [process_video] using
      process_video_exited_eq evs (VideoLoopState.mk none 0 0 false)
  · simpa [process_video] using
      process_video_errors_eq evs (VideoLoopState.mk none 0 0 false) rfl
  · exact process_video_sleeps_eq evs (VideoLoopState.mk none 0 0 false) rfl

/-- One scheduler step preserves the queue accounting: the arrival order is
the appended messages followed by the still-queued tasks. -/
theorem turn_inv_step (st : TurnSchedState) (e : TurnEvent)
    (h : st.arrivals = st.messages ++ st.ready) :
    (turn_step st e).arrivals = (turn_step st e).messages ++ (turn_step st e).ready := by
  cases e with
  | arrive =>
    simp only [turn_step]
    rw [h, List.append_assoc]
  | loopStep =>
    cases hr : st.ready with
    | nil =>
      simpa [turn_step, hr] using h
    | cons id rest =>
      simp only [turn_step, hr]
      rw [h, hr, List.append_assoc, List.singleton_append]
  | modelDone id =>
    by_cases hp : phaseOf st id = Phase.awaitingModel <;> simp [turn_step, hp, h]
  | sayDone id =>
    by_cases hp : phaseOf st id = Phase.speaking <;> simp [turn_step, hp, h]

/-- The queue accounting holds along any run of the trigger scheduler. -/
theorem turn_run_fifo (evs : List TurnEvent) :
    ∀ st : TurnSchedState, st.arrivals = st.messages ++ st.ready →
      (List.foldl turn_step st evs).arrivals
        = (List.foldl turn_step st evs).messages ++ (List.foldl turn_step st evs).ready := by
  induction evs with
  | nil => exact fun st h => h
  | cons e t ih =>
    intro st h
    rw [List.foldl_cons]
    exact ih _ (turn_inv_step st e h)

/-- Claim C1 amended: under every schedule, the user messages appended to the
Conversation State are exactly the earliest-arriving triggers, in arrival
order (the remaining arrivals are still in the ready queue) - tasks start in
FIFO creation order and each appends its message in its synchronous first
segment. -/
theorem C1_fifo_appends (evs : List TurnEvent) :
    (turn_run evs).arrivals = (turn_run evs).messages ++ (turn_run evs).ready :=
  turn_run_fifo evs (TurnSchedState.mk 0 [] [] [] [] []) rfl

/-- Claim C1 is false as stated: with two triggers and two event-loop steps,
the second trigger is dequeued (its turn starts and its model call is issued)
while the first turn is still awaiting the model, not yet speaking or done -
nothing in the code holds a later trigger back during the reasoning phase. -/
theorem C1_counterexample :
    c1Holds [TurnEvent.arrive, TurnEvent.arrive, TurnEvent.loopStep, TurnEvent.loopStep]
      = false
    ∧ ¬ C1_claim := by
  refine ⟨by decide, fun h => ?_⟩
  exact absurd
    (h [TurnEvent.arrive, TurnEvent.arrive, TurnEvent.loopStep, TurnEvent.loopStep])
    (by decide)

/-- One step of the request-reference machine preserves its invariant. -/
theorem ctx_inv_step (st : CtxState) (op : CtxOp) (h : CtxInv st) :
    CtxInv (ctx_step st op) := by
  cases op with
  | append m =>
    refine ⟨?_, ?_⟩
    · intro hi
      exact h.1 hi
    · intro ic hi
      refine ⟨(h.2 ic hi).1.trans (List.prefix_append _ _), ?_⟩
      intro cc hc
      exact (h.2 ic hi).2 cc hc
  | issue =>
    cases hi : st.issuedContent with
    | some ic0 =>
      have hstate : ctx_step st CtxOp.issue = st := by
        simp [ctx_step, hi]
      rw [hstate]
      exact h
    | none =>
      have hstate : ctx_step st CtxOp.issue
          = { st with issuedContent := some st.messages } := by
        simp [ctx_step, hi]
      rw [hstate]
      refine ⟨?_, ?_⟩
      · intro hcontra
        simp at hcontra
      · intro ic hic
        simp only [Option.some.injEq] at hic
        subst hic
        refine ⟨List.prefix_refl _, ?_⟩
        intro cc hcc
        have hcc2 : st.consumedContent = some cc := hcc
        rw [h.1 hi] at hcc2
        cases hcc2
  | consume =>
    cases hi : st.issuedContent with
    | none =>
      have hstate : ctx_step st CtxOp.consume = st := by
        simp [ctx_step, hi]
      rw [hstate]
      exact h
    | some ic0 =>
      cases hc : st.consumedContent with
      | some cc0 =>
        have hstate : ctx_step st CtxOp.consume = st := by
          simp [ctx_step, hi, hc]
        rw [hstate]
        exact h
      | none =>
        have hstate : ctx_step st CtxOp.consume
            = { st with consumedContent := some st.messages } := by
          simp [ctx_step, hi, hc]
        rw [hstate]
        refine ⟨?_, ?_⟩
        · intro hcontra
          have hio : st.issuedContent = none := hcontra
          rw [hi] at hio
          cases hio
        · intro ic hic
          have hic2 : st.issuedContent = some ic := hic
          rw [hi] at hic2
          injection hic2 with h3
          subst h3
          have hpre : ic0 <+: st.messages := (h.2 ic0 hi).1
          refine ⟨hpre, ?_⟩
          intro cc hcc
          have hcc2 : some st.messages = some cc := hcc
          injection hcc2 with h4
          subst h4
          exact hpre


/-- The invariant holds along any run of the request-reference machine. -/
theorem ctx_run_inv (ops : List CtxOp) :
    ∀ st : CtxState, CtxInv st → CtxInv (List.foldl ctx_step st ops) := by
  induction ops with
  | nil => exact fun st h => h
  | cons op t ih =>
    intro st h
    rw [List.foldl_cons]
    exact ih _ (ctx_inv_step st op h)

/-- Claim C3 is false as stated: issue a request after one user message, append
another message while the request is in flight, and the request is consumed
with the appended message included - the passed-by-reference context changed
after issue. -/
theorem C3_counterexample :
    c3Holds [CtxOp.append 1, CtxOp.issue, CtxOp.append 2, CtxOp.consume] = false
    ∧ ¬ C3_claim := by
  refine ⟨by decide, fun h => ?_⟩
  exact absurd (h [CtxOp.append 1, CtxOp.issue, CtxOp.append 2, CtxOp.consume]) (by decide)

/-- Claim C3 amended: the reasoning request is built from the live Conversation
State, not a snapshot, so the content it is consumed with extends the content
at issue time by exactly the messages appended while it was in flight (the
issue-time content is an initial segment of the consumed content). -/
theorem C3_live_context (ops : List CtxOp) (ic cc : List Nat)
    (hi : (ctx_run ops).issuedContent = some ic)
    (hc : (ctx_run ops).consumedContent = some cc) :
    ic <+: cc := by
  have hinv : CtxInv (List.foldl ctx_step (CtxState.mk [0] none none) ops) :=
    ctx_run_inv ops (CtxState.mk [0] none none)
      ⟨fun _ => rfl, by intro ic0 h0; cases h0⟩
  exact (hinv.2 ic hi).2 cc hc

/-- Witness for the amended C3 at the counterexample schedule: the consumed
content [0, 1, 2] extends the issue-time content [0, 1]. -/
theorem C3_live_context_witness :
    (ctx_run [CtxOp.append 1, CtxOp.issue, CtxOp.append 2, CtxOp.consume]).issuedContent
      = some [0, 1]
    ∧ (ctx_run [CtxOp.append 1, CtxOp.issue, CtxOp.append 2, CtxOp.consume]).consumedContent
      = some [0, 1, 2]
    ∧ [0, 1] <+: [0, 1, 2] :=
  ⟨by decide, by decide,
    C3_live_context [CtxOp.append 1, CtxOp.issue, CtxOp.append 2, CtxOp.consume]
      [0, 1] [0, 1, 2] (by decide) (by decide)⟩
